import Mathlib

/-!
Shallow embedding of the `file-organizer` repository.

The repository moves files of selected directories into subfolders chosen by
file extension.  The definitions below are translated from the Python sources:

* `src/file_organizer/file_handler.py` and `src/file_handler/file_handler.py`
  (the two `FileHandler` variants are line-for-line identical in the parts
  modelled here: `get_files`, `create_folder`, `move_file`);
* `src/config/config.py` (`Config.get_configs`, `Config.set_configs`,
  `Config.display_status`);
* `src/console_manager/console_manager.py` (`ConsoleManager.print`);
* `src/scripts/main.py` (`organize`).

Machine-independent data (paths, file names, JSON documents) is modelled with
lists and strings; the filesystem is a list of (path, kind) entries; fallible
operations return `Except`.
-/

/-! ### Decimal rendering of a counter

`FileHandler.move_file` renders the collision counter with an f-string,
i.e. standard decimal notation.  `decDigitsAux` computes the little-endian
decimal digits with explicit fuel so that everything is structural. -/

/-- Little-endian decimal digits of `n`; `fuel` bounds the recursion depth. -/

def decDigitsAux : Nat → Nat → List Nat
  | 0, _ => []
  | fuel + 1, n => if n = 0 then [] else (n % 10) :: decDigitsAux fuel (n / 10)

/-- Little-endian decimal digits of `n` (`fuel = n` always suffices). -/

def decDigits (n : Nat) : List Nat := decDigitsAux n n

/-- Decimal rendering of a natural number, as Python renders an `int` in an
f-string. -/

def decimal (n : Nat) : String :=
  if n = 0 then "0" else String.mk ((decDigits n).reverse.map Nat.digitChar)

/-- The candidate name `f"{stem} ({counter}){suffix}"` built by
`FileHandler.move_file` when resolving a duplicate name. -/

def dupName (stem suffix : String) (counter : Nat) : String :=
  stem ++ " (" ++ decimal counter ++ ")" ++ suffix

/-! ### The duplicate-resolution loop of `FileHandler.move_file`

```python
target_file_path = target_path / file_path.name
if keep_dup:
    counter = 1
    while target_file_path.exists():
        target_file_path = target_path / f"{file_path.stem} ({counter}){file_path.suffix}"
        counter += 1
```

`existing` is the list of entry names present in the target directory, so
`target_file_path.exists()` becomes membership of the candidate name in
`existing`.  The loop is modelled with fuel (returning `none` on exhaustion);
`whileExists_total` shows that fuel `existing.length + 2` always suffices, so
the `none` case is unreachable. -/

/-- The `while target_file_path.exists()` loop of `move_file`, with fuel. -/

def whileExists (existing : List String) (stem suffix : String) :
    Nat → String → Nat → Option String
  | 0, _, _ => none
  | fuel + 1, current, counter =>
    if current ∈ existing then
      whileExists existing stem suffix fuel (dupName stem suffix counter) (counter + 1)
    else some current

/-- Destination name chosen by `move_file`: the original name when
`keep_dup` is false, otherwise the result of the collision loop. -/

def moveTargetName (existing : List String) (name stem suffix : String)
    (keepDup : Bool) : Option String :=
  if keepDup then whileExists existing stem suffix (existing.length + 2) name 1
  else some name

/-! ### Injectivity of the decimal rendering -/

/-- Value of a little-endian digit list. -/

def ofDec : List Nat → Nat
  | [] => 0
  | d :: ds => d + 10 * ofDec ds

/-! ### Python string primitives used by the sources -/

/-- Index of the last occurrence of `'.'` in a char list (Python `str.rfind`). -/

def rfindDot (cs : List Char) : Option Nat :=
  match cs.reverse.findIdx? (fun c => c == '.') with
  | none => none
  | some j => some (cs.length - 1 - j)

/-- Python `PurePath.stem` / `PurePath.suffix`: split `name` at its last dot,
provided that dot is neither the first nor the last character; otherwise the
suffix is empty and the stem is the whole name. -/

def pySplitExt (name : String) : String × String :=
  let cs := name.data
  match rfindDot cs with
  | some i =>
    if 0 < i ∧ i < cs.length - 1 then (String.mk (cs.take i), String.mk (cs.drop i))
    else (name, "")
  | none => (name, "")

/-- Python `PurePath.stem`. -/

def pyStem (name : String) : String := (pySplitExt name).1

/-- Python `PurePath.suffix`. -/

def pySuffix (name : String) : String := (pySplitExt name).2

/-- Python `str.strip()`: remove leading and trailing whitespace. -/

def pyStrip (s : String) : String :=
  String.mk (((s.data.dropWhile Char.isWhitespace).reverse.dropWhile Char.isWhitespace).reverse)

/-- Python `s.split(" ", 1)`: the part before the first space and, when a space
occurs at all, the remainder after that single space. -/

def pySplitFirstSpace (s : String) : String × Option String :=
  let before := s.data.takeWhile (fun c => !(c == ' '))
  match s.data.dropWhile (fun c => !(c == ' ')) with
  | [] => (String.mk before, none)
  | _ :: rest => (String.mk before, some (String.mk rest))

/-- Split a char list at a separator character (how `pathlib` cuts a path
string into segments). -/

def splitChar (sep : Char) : List Char → List (List Char)
  | [] => [[]]
  | c :: cs =>
    match splitChar sep cs with
    | [] => [[]]
    | g :: gs => if c == sep then [] :: g :: gs else (c :: g) :: gs

/-- Path segments of a path string: split on `'/'`, dropping empty segments. -/

def segsOf (s : String) : List String :=
  (splitChar '/' s.data).filterMap (fun g => if g.isEmpty then none else some (String.mk g))

/-- Python `name.startswith(".")`. -/

def startsWithDot (s : String) : Bool :=
  match s.data with
  | [] => false
  | c :: _ => c == '.'

/-! ### Filesystem model

The filesystem visible to `FileHandler` is a list of (absolute path, kind)
entries; a path is its list of segments.  The list order is the order in which
`iterdir` yields the children of a directory (`os.listdir` takes an eager
snapshot, so mutations during `organize`'s file loop do not affect the
listing being iterated). -/

/-- Kind of a directory entry. -/

inductive Entry
  | file
  | dir
deriving DecidableEq

/-- A filesystem: an ordered list of (absolute path, kind) entries. -/

structure FS where
  entries : List (List String × Entry)
deriving DecidableEq

/-- `p.is_file()`. -/

def FS.isFile (fs : FS) (p : List String) : Prop := (p, Entry.file) ∈ fs.entries

/-- `p.is_dir()`. -/

def FS.isDir (fs : FS) (p : List String) : Prop := (p, Entry.dir) ∈ fs.entries

/-- `p.exists()`. -/

def FS.pexists (fs : FS) (p : List String) : Prop := fs.isFile p ∨ fs.isDir p

instance (fs : FS) (p : List String) : Decidable (fs.isFile p) :=
  inferInstanceAs (Decidable ((p, Entry.file) ∈ fs.entries))

instance (fs : FS) (p : List String) : Decidable (fs.isDir p) :=
  inferInstanceAs (Decidable ((p, Entry.dir) ∈ fs.entries))

instance (fs : FS) (p : List String) : Decidable (fs.pexists p) :=
  inferInstanceAs (Decidable (fs.isFile p ∨ fs.isDir p))

/-- The entry names directly under directory `dirPath` (files or directories):
the names `n` with an entry at `dirPath ++ [n]`. -/

def FS.namesInDir (fs : FS) (dirPath : List String) : List String :=
  fs.entries.filterMap fun e =>
    match e.1.getLast? with
    | some n => if e.1.dropLast = dirPath then some n else none
    | none => none

/-- `FileHandler.get_files`: the non-hidden regular files directly under the
root folder, in entry order.  A file is hidden when its name starts with a
period. -/

def FS.getFiles (fs : FS) (root : List String) : List (List String) :=
  fs.entries.filterMap fun e =>
    match e with
    | (p, Entry.file) =>
      match p.getLast? with
      | some n => if p.dropLast = root ∧ startsWithDot n = false then some p else none
      | none => none
    | (_, Entry.dir) => none

/-- The Python exception classes surfaced by the modelled operations.
`noFreeName` marks exhaustion of the collision-loop fuel; it is unreachable
(`moveTargetName_free`) and stands for non-termination of the `while` loop. -/

inductive Err
  | typeError
  | fileExistsError
  | fileNotFoundError
  | notADirectoryError
  | permissionError
  | isADirectoryError
  | noFreeName
deriving DecidableEq

/-- `e.__class__.__name__`, as interpolated into `organize`'s failure
message. -/

def Err.className : Err → String
  | .typeError => "TypeError"
  | .fileExistsError => "FileExistsError"
  | .fileNotFoundError => "FileNotFoundError"
  | .notADirectoryError => "NotADirectoryError"
  | .permissionError => "PermissionError"
  | .isADirectoryError => "IsADirectoryError"
  | .noFreeName => "NoFreeName"

/-- The exception classes caught by the per-file `try/except` of `organize`:
`(TypeError, FileExistsError, FileNotFoundError, NotADirectoryError,
PermissionError)`. -/

def Err.caught : Err → Bool
  | .typeError => true
  | .fileExistsError => true
  | .fileNotFoundError => true
  | .notADirectoryError => true
  | .permissionError => true
  | .isADirectoryError => false
  | .noFreeName => false

/-- `Path.mkdir(parents=True, exist_ok=True)`: create the successive segments
`segs` below the existing prefix `base`.  Parents created before a failing
segment persist, as with `os.makedirs`. -/

def FS.mkdirParents (fs : FS) (base : List String) : List String → FS × Option Err
  | [] => (fs, none)
  | seg :: rest =>
    let q := base ++ [seg]
    if fs.isFile q then (fs, some Err.notADirectoryError)
    else if fs.isDir q then fs.mkdirParents q rest
    else (FS.mk (fs.entries ++ [(q, Entry.dir)])).mkdirParents q rest

/-- `FileHandler.create_folder`: raise `FileExistsError` when a regular file
occupies the target path, otherwise create the directory and any missing
parents (idempotent when it already exists). -/

def FS.createFolder (fs : FS) (root : List String) (folderName : String) :
    FS × Option Err :=
  let target := root ++ segsOf folderName
  if fs.pexists target ∧ fs.isFile target then (fs, some Err.fileExistsError)
  else fs.mkdirParents root (segsOf folderName)

/-- `Path.rename` (POSIX `rename`): fails onto an existing directory,
otherwise atomically replaces whatever regular file is at the destination. -/

def FS.rename (fs : FS) (src dst : List String) : Except Err FS :=
  if fs.isDir dst then Except.error Err.isADirectoryError
  else Except.ok (FS.mk
    ((fs.entries.filter fun e => decide (e.1 ≠ src ∧ e.1 ≠ dst)) ++ [(dst, Entry.file)]))

/-- `FileHandler.move_file`.  `organize` passes `file` as an absolute path
produced by `get_files`, so `self._folder_path / file` is `file` itself.
Checks that the source is a regular file and the target an existing
directory, resolves the destination name (collision loop when `keep_dup`),
then renames. -/

def FS.moveFile (fs : FS) (root : List String) (filePath : List String)
    (folderName : String) (keepDup : Bool) : Except Err FS :=
  let target := root ++ segsOf folderName
  if ¬ fs.isFile filePath then Except.error Err.fileNotFoundError
  else if ¬ fs.isDir target then Except.error Err.notADirectoryError
  else
    let name := filePath.getLast?.getD ""
    match moveTargetName (fs.namesInDir target) name (pyStem name) (pySuffix name) keepDup with
    | some destName => fs.rename filePath (target ++ [destName])
    | none => Except.error Err.noFreeName

/-! ### Configuration document and the orchestrator `organize` -/

/-- A JSON configuration document with the four required fields
(`extension_to_folder` keys are unique, as in a JSON object). -/

structure ConfigDoc where
  extension_to_folder : List (String × String)
  folder_paths : List String
  keep_duplicates : Bool
  status_level : String
deriving DecidableEq

/-- Dictionary lookup in an association list (Python `dict[key]`, guarded by
`key in dict`). -/

def extFolderOf (m : List (String × String)) (k : String) : Option String :=
  match m.find? (fun kv => kv.1 == k) with
  | some kv => some kv.2
  | none => none

/-- Target folder resolved by `organize` for a file name: the mapped folder of
the file's extension, or `"OTHERS"`.  The flag records which branch was taken
(the two branches format their success message differently). -/

def targetFor (extMap : List (String × String)) (name : String) : String × Bool :=
  match extFolderOf extMap (pySuffix name) with
  | some t => (t, true)
  | none => ("OTHERS", false)

/-- Success message of `organize`: the mapped branch quotes the file name, the
`OTHERS` branch does not. -/

def successMsg (mapped : Bool) (name target : String) : String :=
  if mapped then "'" ++ name ++ "' moved to '" ++ target ++ "' folder"
  else name ++ " moved to 'OTHERS' folder"

/-- Failure message of `organize` (same format in both branches). -/

def failureMsg (e : Err) (name target : String) : String :=
  "[" ++ e.className ++ "] failed to move '" ++ name ++ "' to '" ++ target ++ "' folder"

/-- The `try` body of the per-file block of `organize`: create the target
folder, then move the file.  Returns the filesystem as mutated so far
together with the exception, if any. -/

def createMove (fs : FS) (root : List String) (target : String)
    (filePath : List String) (keepDup : Bool) : FS × Option Err :=
  match fs.createFolder root target with
  | (fs1, some e) => (fs1, some e)
  | (fs1, none) =>
    match fs1.moveFile root filePath target keepDup with
    | Except.error e => (fs1, some e)
    | Except.ok fs2 => (fs2, none)

/-- Per-file processing of `organize`: resolve the target folder, run
create-then-move, report `success`; or catch one of the five handled
exception classes and report `failed`; an unhandled exception propagates. -/

def processFile (extMap : List (String × String)) (keepDup : Bool) (fs : FS)
    (root : List String) (filePath : List String) :
    Except Err (FS × List (String × String)) :=
  let name := filePath.getLast?.getD ""
  let tm := targetFor extMap name
  match createMove fs root tm.1 filePath keepDup with
  | (fs1, some e) =>
    if e.caught then Except.ok (fs1, [("failed", failureMsg e name tm.1)])
    else Except.error e
  | (fs2, none) => Except.ok (fs2, [("success", successMsg tm.2 name tm.1)])

/-- The inner `for file in handler.get_files()` loop of `organize`, over the
already-taken directory listing. -/

def organizeFiles (extMap : List (String × String)) (keepDup : Bool)
    (root : List String) : FS → List (List String) →
    Except Err (FS × List (String × String))
  | fs, [] => Except.ok (fs, [])
  | fs, f :: rest =>
    match processFile extMap keepDup fs root f with
    | Except.error e => Except.error e
    | Except.ok (fs1, log1) =>
      match organizeFiles extMap keepDup root fs1 rest with
      | Except.error e => Except.error e
      | Except.ok (fs2, log2) => Except.ok (fs2, log1 ++ log2)

/-- One iteration of the outer folder loop of `organize`: assigning
`handler.folder_path` raises `NotADirectoryError` when the path is not a
directory (uncaught there), then the listing is snapshotted and every file
processed. -/

def organizeFolder (extMap : List (String × String)) (keepDup : Bool) (fs : FS)
    (rootStr : String) : Except Err (FS × List (String × String)) :=
  let root := segsOf rootStr
  if fs.isDir root then organizeFiles extMap keepDup root fs (fs.getFiles root)
  else Except.error Err.notADirectoryError

/-- The outer `for i in range(len(folders_to_organize))` loop of `organize`. -/

def organizeAll (extMap : List (String × String)) (keepDup : Bool) :
    FS → List String → Except Err (FS × List (String × String))
  | fs, [] => Except.ok (fs, [])
  | fs, r :: rest =>
    match organizeFolder extMap keepDup fs r with
    | Except.error e => Except.error e
    | Except.ok (fs1, log1) =>
      match organizeAll extMap keepDup fs1 rest with
      | Except.error e => Except.error e
      | Except.ok (fs2, log2) => Except.ok (fs2, log1 ++ log2)

/-- `organize` of `src/scripts/main.py`, returning the final filesystem and
the ordered (status, message) pairs handed to `config_obj.display_status`. -/

def organize (cfg : ConfigDoc) (fs : FS) : Except Err (FS × List (String × String)) :=
  organizeAll cfg.extension_to_folder cfg.keep_duplicates fs cfg.folder_paths

/-! ### Status reporting -/

/-- `colorama.Fore.GREEN + "●" + colorama.Fore.RESET`. -/

def successSymbol : String := "\x1b[32m●\x1b[39m"

/-- `colorama.Fore.RED + "●" + colorama.Fore.RESET`. -/

def failedSymbol : String := "\x1b[31m●\x1b[39m"

/-- `Config.display_status`: the line printed for a status/message pair, or
`none` when the configured `status_level` or an invalid status suppresses
it. -/

def displayStatus (statusLevel status msg : String) : Option String :=
  if statusLevel ≠ "all" ∧ statusLevel ≠ status then none
  else if status = "success" then some (successSymbol ++ " " ++ msg)
  else if status = "failed" then some (failedSymbol ++ " " ++ msg)
  else none

/-- State of a `ConsoleManager`: the in-memory message history and the
configured output level.  A flag (category) is `none` for Python's `None`. -/

structure ConsoleManager where
  messages : List (String × Option String)
  output_level : String
deriving DecidableEq

/-- The keys of `ConsoleManager.flags`. -/

def flagKeys : List (Option String) := [some "success", some "failed", none]

/-- `ConsoleManager.flags[flag]`. -/

def flagSymbol : Option String → String
  | some "success" => successSymbol
  | some "failed" => failedSymbol
  | _ => ""

/-- `ConsoleManager.print`: reject unknown flags; append the rendered message
to the history always; write it to the stream unless a non-`None` flag
differs from a non-`"all"` output level.  Returns the new state and the text
written, if any. -/

def consolePrint (cm : ConsoleManager) (msg : String) (flag : Option String) :
    Except Err (ConsoleManager × Option String) :=
  if flag ∉ flagKeys then Except.error Err.typeError
  else
    let formatted := flagSymbol flag ++ " " ++ msg ++ "\n"
    let cm' := ConsoleManager.mk (cm.messages ++ [(formatted, flag)]) cm.output_level
    if flag.isSome ∧ cm.output_level ≠ "all" ∧ some cm.output_level ≠ flag then
      Except.ok (cm', none)
    else Except.ok (cm', some formatted)

/-! ### Configuration store: `Config.get_configs` and `Config.set_configs` -/

/-- A raw JSON document as read by `Config.get_configs`: each required key is
present or absent. -/

structure RawDoc where
  extension_to_folder : Option (List (String × String))
  folder_paths : Option (List String)
  keep_duplicates : Option Bool
  status_level : Option String
deriving DecidableEq

/-- The errors `Config.get_configs` raises. -/

inductive CfgErr
  | fileNotFound
  | keyError (key : String)
  | valueError
deriving DecidableEq

/-- `KeyError` and `ValueError` are validation errors; `FileNotFoundError` is
not. -/

def CfgErr.isValidation : CfgErr → Bool
  | .fileNotFound => false
  | .keyError _ => true
  | .valueError => true

/-- `Config.get_configs`: `FileNotFoundError` when the file is missing, a
`KeyError` for the first missing required key (in source order), a
`ValueError` when `folder_paths` is empty or has more than 20 entries,
otherwise the document itself. -/

def getConfigs (file : Option RawDoc) : Except CfgErr ConfigDoc :=
  match file with
  | none => Except.error CfgErr.fileNotFound
  | some raw =>
    match raw.extension_to_folder with
    | none => Except.error (CfgErr.keyError "extension_to_folder")
    | some ext =>
      match raw.folder_paths with
      | none => Except.error (CfgErr.keyError "folder_paths")
      | some fps =>
        if fps.length = 0 then Except.error CfgErr.valueError
        else if fps.length > 20 then Except.error CfgErr.valueError
        else
          match raw.keep_duplicates with
          | none => Except.error (CfgErr.keyError "keep_duplicates")
          | some kd =>
            match raw.status_level with
            | none => Except.error (CfgErr.keyError "status_level")
            | some sl => Except.ok (ConfigDoc.mk ext fps kd sl)

/-- Python `dict.update({k: v})`: replace the value of an existing key in
place, otherwise append the new pair. -/

def dictUpsert (m : List (String × String)) (k v : String) : List (String × String) :=
  if m.any (fun kv => kv.1 == k) then
    m.map (fun kv => if kv.1 == k then (k, v) else kv)
  else m ++ [(k, v)]

/-- One entry of the `extension_to_folder` override, as validated by
`Config.set_configs`: strip, skip when empty, split on the first space, keep
only entries with two parts whose first token contains a dot.  Returns the
key/value merged into the extension map, if any. -/

def validExtEntry (data : String) : Option (String × String) :=
  let d := pyStrip data
  if d = "" then none
  else
    match pySplitFirstSpace d with
    | (tok, some rest) =>
      if tok.data.contains '.' then some (tok, pyStrip rest) else none
    | (_, none) => none

/-- The merge loop of `Config.set_configs` over the supplied entries. -/

def mergeExtEntries (m : List (String × String)) : List String → List (String × String)
  | [] => m
  | data :: rest =>
    match validExtEntry data with
    | some kv => mergeExtEntries (dictUpsert m kv.1 kv.2) rest
    | none => mergeExtEntries m rest

/-- `Config.set_configs`: apply the optional overrides to the document read
from disk and persist the result.  (`status_level.lower()` is the identity on
the members of `("all", "success", "failed")`, which the guard has already
checked.) -/

def setConfigs (doc : ConfigDoc) (extension_to_folder : Option (List String))
    (folder_paths : Option (List String)) (keep_duplicates : Option String)
    (status_level : Option String) : ConfigDoc :=
  let d1 :=
    match extension_to_folder with
    | some entries =>
      { doc with extension_to_folder := mergeExtEntries doc.extension_to_folder entries }
    | none => doc
  let d2 :=
    match folder_paths with
    | some fps =>
      if 0 < fps.length ∧ fps.length < 20 then { d1 with folder_paths := fps } else d1
    | none => d1
  let d3 :=
    match keep_duplicates with
    | some kd => { d2 with keep_duplicates := kd == "true" }
    | none => d2
  match status_level with
  | some sl =>
    if sl = "all" ∨ sl = "success" ∨ sl = "failed" then { d3 with status_level := sl }
    else d3
  | none => d3

/-- The value the merge loop of `set_configs` takes for key `k` from the
supplied entries: the value of the last valid entry (nonempty after
stripping, split on the first space into two parts, first token containing a
dot) whose key is `k`. -/

def lastValidValue (k : String) : List String → Option String
  | [] => none
  | e :: es =>
    match lastValidValue k es with
    | some v => some v
    | none =>
      match validExtEntry e with
      | some kv => if kv.1 = k then some kv.2 else none
      | none => none

/-! ### Theorems -/

theorem ofDec_decDigitsAux : ∀ fuel n, n ≤ fuel → ofDec (decDigitsAux fuel n) = n := by
  intro fuel
  induction fuel with
  | zero =>
    intro n h
    have : n = 0 := Nat.le_zero.mp h
    subst this
    rfl
  | succ fuel ih =>
    intro n h
    by_cases h0 : n = 0
    · subst h0; simp [decDigitsAux, ofDec]
    · have hlt : n / 10 < n := Nat.div_lt_self (Nat.pos_of_ne_zero h0) (by omega)
      have hle : n / 10 ≤ fuel := by omega
      simp only [decDigitsAux, h0, if_false, ofDec, ih _ hle]
      omega

theorem decDigits_inj {a b : Nat} (h : decDigits a = decDigits b) : a = b := by
  have ha := ofDec_decDigitsAux a a (Nat.le_refl a)
  have hb := ofDec_decDigitsAux b b (Nat.le_refl b)
  unfold decDigits at h
  rw [← ha, ← hb, h]

theorem decDigitsAux_lt : ∀ fuel n d, d ∈ decDigitsAux fuel n → d < 10 := by
  intro fuel
  induction fuel with
  | zero => intro n d hd; simp [decDigitsAux] at hd
  | succ fuel ih =>
    intro n d hd
    by_cases h0 : n = 0
    · subst h0; simp [decDigitsAux] at hd
    · simp only [decDigitsAux, h0, if_false, List.mem_cons] at hd
      rcases hd with hd | hd
      · subst hd; exact Nat.mod_lt _ (by omega)
      · exact ih _ _ hd

theorem digitChar_inj_lt {a b : Nat} (ha : a < 10) (hb : b < 10)
    (h : Nat.digitChar a = Nat.digitChar b) : a = b := by
  have key : ∀ x y : Fin 10, Nat.digitChar x.val = Nat.digitChar y.val → x = y := by decide
  exact congrArg Fin.val (key ⟨a, ha⟩ ⟨b, hb⟩ h)

theorem map_digitChar_inj : ∀ xs ys : List Nat, (∀ d ∈ xs, d < 10) → (∀ d ∈ ys, d < 10) →
    xs.map Nat.digitChar = ys.map Nat.digitChar → xs = ys := by
  intro xs
  induction xs with
  | nil =>
    intro ys _ _ h
    cases ys with
    | nil => rfl
    | cons y ys => simp at h
  | cons x xs ih =>
    intro ys hx hy h
    cases ys with
    | nil => simp at h
    | cons y ys =>
      simp only [List.map_cons, List.cons.injEq] at h
      have hxy := digitChar_inj_lt (hx x (by simp)) (hy y (by simp)) h.1
      have ht := ih ys (fun d hd => hx d (by simp [hd])) (fun d hd => hy d (by simp [hd])) h.2
      simp [hxy, ht]

theorem decimal_inj_pos {a b : Nat} (ha : 0 < a) (hb : 0 < b)
    (h : decimal a = decimal b) : a = b := by
  unfold decimal at h
  rw [if_neg (by omega), if_neg (by omega)] at h
  have hdata : (decDigits a).reverse.map Nat.digitChar = (decDigits b).reverse.map Nat.digitChar :=
    congrArg String.data h
  have hrev := map_digitChar_inj _ _
    (fun d hd => decDigitsAux_lt a a d (List.mem_reverse.mp hd))
    (fun d hd => decDigitsAux_lt b b d (List.mem_reverse.mp hd)) hdata
  exact decDigits_inj (List.reverse_injective hrev)

theorem dupName_inj_pos (stem suffix : String) {a b : Nat} (ha : 0 < a) (hb : 0 < b)
    (h : dupName stem suffix a = dupName stem suffix b) : a = b := by
  apply decimal_inj_pos ha hb
  have hd : stem.data ++ (" (".data ++ ((decimal a).data ++ (")".data ++ suffix.data))) =
      stem.data ++ (" (".data ++ ((decimal b).data ++ (")".data ++ suffix.data))) := by
    have hh := congrArg String.data h
    simpa [dupName, List.append_assoc] using hh
  have h1 := List.append_cancel_left hd
  have h2 := List.append_cancel_left h1
  have hlen : (decimal a).data.length = (decimal b).data.length := by
    have hl := congrArg List.length h2
    simp only [List.length_append] at hl
    omega
  exact String.ext (List.append_inj_left h2 hlen)

/-! ### Termination and characterisation of the collision loop -/

theorem exists_free_dupName (existing : List String) (stem suffix : String) :
    ∃ k, k < existing.length + 1 ∧ dupName stem suffix (1 + k) ∉ existing := by
  by_contra hc
  push_neg at hc
  have hinj : Set.InjOn (fun k => dupName stem suffix (1 + k))
      ↑(Finset.range (existing.length + 1)) := by
    intro x _ y _ hxy
    have hv := dupName_inj_pos stem suffix (by omega) (by omega) hxy
    omega
  have hsub : (Finset.range (existing.length + 1)).image (fun k => dupName stem suffix (1 + k)) ⊆
      existing.toFinset := by
    intro s hs
    simp only [Finset.mem_image, Finset.mem_range] at hs
    obtain ⟨k, hk, rfl⟩ := hs
    exact List.mem_toFinset.mpr (hc k hk)
  have h1 : existing.length + 1 ≤ existing.toFinset.card := by
    have hcard := Finset.card_le_card hsub
    rwa [Finset.card_image_of_injOn hinj, Finset.card_range] at hcard
  have h2 := @List.toFinset_card_le String _ existing
  omega

theorem whileExists_total (existing : List String) (stem suffix : String) :
    ∀ fuel counter current,
      (current ∉ existing ∨ ∃ k, k < fuel ∧ dupName stem suffix (counter + k) ∉ existing) →
      ∃ r, whileExists existing stem suffix (fuel + 1) current counter = some r ∧
        r ∉ existing := by
  intro fuel
  induction fuel with
  | zero =>
    intro counter current h
    rcases h with h | ⟨k, hk, _⟩
    · exact ⟨current, by simp [whileExists, h], h⟩
    · omega
  | succ fuel ih =>
    intro counter current h
    by_cases hcur : current ∈ existing
    · have hstep : whileExists existing stem suffix (fuel + 1 + 1) current counter =
          whileExists existing stem suffix (fuel + 1) (dupName stem suffix counter)
            (counter + 1) := by
        simp [whileExists, hcur]
      rcases h with h | ⟨k, hk, hfree⟩
      · exact absurd hcur h
      · rcases Nat.eq_zero_or_pos k with rfl | hkpos
        · have hfree' : dupName stem suffix counter ∉ existing := by
            simpa using hfree
          obtain ⟨r, hr, hrf⟩ := ih (counter + 1) (dupName stem suffix counter) (Or.inl hfree')
          exact ⟨r, by rw [hstep]; exact hr, hrf⟩
        · obtain ⟨k', rfl⟩ : ∃ k', k = k' + 1 := ⟨k - 1, by omega⟩
          have hx : dupName stem suffix (counter + 1 + k') ∉ existing := by
            have : counter + 1 + k' = counter + (k' + 1) := by omega
            rw [this]; exact hfree
          obtain ⟨r, hr, hrf⟩ := ih (counter + 1) (dupName stem suffix counter)
            (Or.inr ⟨k', by omega, hx⟩)
          exact ⟨r, by rw [hstep]; exact hr, hrf⟩
    · exact ⟨current, by simp [whileExists, hcur], hcur⟩

theorem whileExists_charact (existing : List String) (stem suffix : String) :
    ∀ fuel counter current r,
      whileExists existing stem suffix fuel current counter = some r →
      (current ∉ existing ∧ r = current) ∨
      (current ∈ existing ∧ ∃ n, counter ≤ n ∧ r = dupName stem suffix n ∧
        dupName stem suffix n ∉ existing ∧
        ∀ m, counter ≤ m → m < n → dupName stem suffix m ∈ existing) := by
  intro fuel
  induction fuel with
  | zero => intro counter current r h; simp [whileExists] at h
  | succ fuel ih =>
    intro counter current r h
    by_cases hcur : current ∈ existing
    · right
      refine ⟨hcur, ?_⟩
      rw [show whileExists existing stem suffix (fuel + 1) current counter =
          whileExists existing stem suffix fuel (dupName stem suffix counter) (counter + 1)
          from by simp [whileExists, hcur]] at h
      rcases ih _ _ _ h with ⟨hfree, rfl⟩ | ⟨hmem, n, hn, hr2, hf2, hmin⟩
      · exact ⟨counter, Nat.le_refl _, rfl, hfree, fun m h1 h2 => absurd h2 (by omega)⟩
      · refine ⟨n, by omega, hr2, hf2, fun m h1 h2 => ?_⟩
        rcases Nat.eq_or_lt_of_le h1 with rfl | h1'
        · exact hmem
        · exact hmin m (by omega) h2
    · left
      have hr : current = r := by simpa [whileExists, hcur] using h
      exact ⟨hcur, hr.symm⟩

/-- The destination chosen by the collision loop with `keep_dup = true` never
exists: it is the original name when free, else `stem (N)suffix` for the
smallest free `N ≥ 1`. -/

theorem moveTargetName_free (existing : List String) (name stem suffix : String) :
    ∃ r, moveTargetName existing name stem suffix true = some r ∧ r ∉ existing ∧
      (name ∉ existing → r = name) ∧
      (name ∈ existing → ∃ n, 1 ≤ n ∧ r = dupName stem suffix n ∧
        dupName stem suffix n ∉ existing ∧
        ∀ m, 1 ≤ m → m < n → dupName stem suffix m ∈ existing) := by
  obtain ⟨k, hk, hfree⟩ := exists_free_dupName existing stem suffix
  obtain ⟨r, hr, hrfree⟩ := whileExists_total existing stem suffix (existing.length + 1) 1 name
    (Or.inr ⟨k, by omega, hfree⟩)
  have hr' : moveTargetName existing name stem suffix true = some r := by
    simpa [moveTargetName] using hr
  refine ⟨r, hr', hrfree, ?_, ?_⟩
  · intro hname
    rcases whileExists_charact existing stem suffix _ _ _ _ hr with ⟨_, rfl⟩ | ⟨hmem, _⟩
    · rfl
    · exact absurd hmem hname
  · intro hname
    rcases whileExists_charact existing stem suffix _ _ _ _ hr with ⟨hfree', _⟩ | h2
    · exact absurd hname hfree'
    · exact h2.2

/-- C1: for every move with `keep_duplicates = true` of a file `name.ext` into a
target folder already containing `name.ext`, the moved file is stored as
`name (1).ext`; if `name (1).ext` also exists (a third collision), it is stored
as `name (2).ext`. -/

theorem C1_collision_disambiguator (existing : List String) (stem suffix : String)
    (h1 : stem ++ suffix ∈ existing) :
    (dupName stem suffix 1 ∉ existing →
      moveTargetName existing (stem ++ suffix) stem suffix true =
        some (dupName stem suffix 1)) ∧
    (dupName stem suffix 1 ∈ existing → dupName stem suffix 2 ∉ existing →
      moveTargetName existing (stem ++ suffix) stem suffix true =
        some (dupName stem suffix 2)) := by
  obtain ⟨k, hk⟩ : ∃ k, existing.length = k + 1 :=
    ⟨existing.length - 1, by have := List.length_pos.mpr (List.ne_nil_of_mem h1); omega⟩
  constructor
  · intro hd1
    rw [moveTargetName, if_pos rfl, show existing.length + 2 = k + 1 + 1 + 1 from by omega]
    simp [whileExists, h1, hd1]
  · intro hd1 hd2
    rw [moveTargetName, if_pos rfl, show existing.length + 2 = k + 1 + 1 + 1 from by omega]
    simp [whileExists, h1, hd1, hd2]

/-- Witness for C1 at a concrete input: a target folder containing `a.txt`,
then one containing both `a.txt` and `a (1).txt`. -/

theorem C1_collision_disambiguator_witness :
    moveTargetName ["a.txt"] ("a" ++ ".txt") "a" ".txt" true =
      some (dupName "a" ".txt" 1) ∧
    moveTargetName ["a.txt", "a (1).txt"] ("a" ++ ".txt") "a" ".txt" true =
      some (dupName "a" ".txt" 2) := by
  constructor
  · exact (C1_collision_disambiguator ["a.txt"] "a" ".txt" (by decide)).1 (by decide)
  · exact (C1_collision_disambiguator ["a.txt", "a (1).txt"] "a" ".txt" (by decide)).2
      (by decide) (by decide)

example : pySuffix "a.txt" = ".txt" := by decide

example : pyStem "a.txt" = "a" := by decide

example : pySplitExt ".hidden" = (".hidden", "") := by decide

example : pySplitExt "a.b.c" = ("a.b", ".c") := by decide

example : pySplitExt "name." = ("name.", "") := by decide

example : pyStrip "  a b\t " = "a b" := by decide

example : pySplitFirstSpace "a  b" = ("a", some " b") := by decide

example : pySplitFirstSpace ".txt" = (".txt", none) := by decide

example : segsOf "/tmp/x" = ["tmp", "x"] := by decide

example : segsOf "Docs" = ["Docs"] := by decide

example : decimal 10 = "10" := by decide

example : dupName "a" ".txt" 2 = "a (2).txt" := by decide

theorem FS.mem_namesInDir (fs : FS) (dirPath : List String) (n : String) :
    n ∈ fs.namesInDir dirPath ↔ fs.pexists (dirPath ++ [n]) := by
  unfold FS.namesInDir FS.pexists FS.isFile FS.isDir
  constructor
  · intro h
    obtain ⟨e, he, hsome⟩ := List.mem_filterMap.mp h
    cases hgl : e.1.getLast? with
    | none => rw [hgl] at hsome; cases hsome
    | some m =>
      rw [hgl] at hsome
      change (if e.1.dropLast = dirPath then some m else none) = some n at hsome
      by_cases hdp : e.1.dropLast = dirPath
      · rw [if_pos hdp] at hsome
        cases hsome
        obtain ⟨ys, hys⟩ := List.getLast?_eq_some_iff.mp hgl
        have hy : ys = dirPath := by
          rw [hys] at hdp; simpa using hdp
        have he1 : e.1 = dirPath ++ [n] := by rw [hys, hy]
        rcases e with ⟨p, k⟩
        cases k
        · exact Or.inl (he1 ▸ he)
        · exact Or.inr (he1 ▸ he)
      · rw [if_neg hdp] at hsome; cases hsome
  · intro h
    have mk : ∀ k : Entry, (dirPath ++ [n], k) ∈ fs.entries → n ∈ fs.namesInDir dirPath := by
      intro k hk
      apply List.mem_filterMap.mpr
      refine ⟨(dirPath ++ [n], k), hk, ?_⟩
      simp [List.getLast?_concat, List.dropLast_concat]
    rcases h with h | h
    · exact mk Entry.file h
    · exact mk Entry.dir h

/-- C2: with configuration `{".txt": "Docs"}`, folders `["/tmp/x"]`,
`keep_duplicates = true`, `status_level = "all"`, and `/tmp/x` containing
exactly `a.txt` and `b.png`, `organize` succeeds, `/tmp/x/Docs/a.txt` and
`/tmp/x/OTHERS/b.png` exist afterwards, and exactly two `success` messages
are recorded, both displayed at level `"all"`. -/

theorem C2_scenario_organize :
    ∃ fsOut : FS,
      organize (ConfigDoc.mk [(".txt", "Docs")] ["/tmp/x"] true "all")
          (FS.mk [(["tmp"], Entry.dir), (["tmp", "x"], Entry.dir),
            (["tmp", "x", "a.txt"], Entry.file), (["tmp", "x", "b.png"], Entry.file)]) =
        Except.ok (fsOut,
          [("success", "'a.txt' moved to 'Docs' folder"),
           ("success", "b.png moved to 'OTHERS' folder")]) ∧
      fsOut.isFile ["tmp", "x", "Docs", "a.txt"] ∧
      fsOut.isFile ["tmp", "x", "OTHERS", "b.png"] ∧
      ([("success", "'a.txt' moved to 'Docs' folder"),
        ("success", "b.png moved to 'OTHERS' folder")].filter
          (fun m => m.1 == "success")).length = 2 ∧
      ∀ m ∈ [("success", "'a.txt' moved to 'Docs' folder"),
             ("success", "b.png moved to 'OTHERS' folder")],
        (displayStatus "all" m.1 m.2).isSome := by
  refine ⟨_, rfl, by decide, by decide, by decide, by decide⟩

/-- Unfolding equation for a non-empty file list. -/

theorem organizeFiles_cons (extMap : List (String × String)) (keepDup : Bool)
    (root : List String) (fs : FS) (f : List String) (rest : List (List String)) :
    organizeFiles extMap keepDup root fs (f :: rest) =
      match processFile extMap keepDup fs root f with
      | Except.error e => Except.error e
      | Except.ok (fs1, log1) =>
        match organizeFiles extMap keepDup root fs1 rest with
        | Except.error e => Except.error e
        | Except.ok (fs2, log2) => Except.ok (fs2, log1 ++ log2) := rfl

/-- C4: when the create-folder/move pipeline fails for a file with one of the
caught exception classes, `organize` reports exactly one `failed` message for
that file and goes on to process the remaining files; the run is not aborted
and the operation is not retried. -/

theorem C4_per_file_failure_continues (extMap : List (String × String)) (keepDup : Bool)
    (fs fs1 : FS) (root filePath : List String) (e : Err)
    (hfail : createMove fs root (targetFor extMap (filePath.getLast?.getD "")).1 filePath keepDup
      = (fs1, some e))
    (hcaught : e.caught = true) :
    processFile extMap keepDup fs root filePath =
      Except.ok (fs1, [("failed", failureMsg e (filePath.getLast?.getD "")
        (targetFor extMap (filePath.getLast?.getD "")).1)]) ∧
    ∀ rest fs2 log2, organizeFiles extMap keepDup root fs1 rest = Except.ok (fs2, log2) →
      organizeFiles extMap keepDup root fs (filePath :: rest) =
        Except.ok (fs2, ("failed", failureMsg e (filePath.getLast?.getD "")
          (targetFor extMap (filePath.getLast?.getD "")).1) :: log2) := by
  have hp : processFile extMap keepDup fs root filePath =
      Except.ok (fs1, [("failed", failureMsg e (filePath.getLast?.getD "")
        (targetFor extMap (filePath.getLast?.getD "")).1)]) := by
    have hbody : processFile extMap keepDup fs root filePath =
        (match createMove fs root (targetFor extMap (filePath.getLast?.getD "")).1
            filePath keepDup with
         | (fs1, some e) =>
           if e.caught then
             Except.ok (fs1, [("failed", failureMsg e (filePath.getLast?.getD "")
               (targetFor extMap (filePath.getLast?.getD "")).1)])
           else Except.error e
         | (fs2, none) =>
           Except.ok (fs2, [("success",
             successMsg (targetFor extMap (filePath.getLast?.getD "")).2
               (filePath.getLast?.getD "")
               (targetFor extMap (filePath.getLast?.getD "")).1)])) := rfl
    rw [hbody, hfail]
    dsimp only
    rw [hcaught]
    simp
  refine ⟨hp, ?_⟩
  intro rest fs2 log2 h2
  rw [organizeFiles_cons, hp]
  dsimp only
  rw [h2]
  rfl

/-- Witness for C4: a regular file named `Docs` occupies the target path, so
`create_folder` raises `FileExistsError`; the file is reported `failed` once
and a following file list is still processed. -/

theorem C4_per_file_failure_continues_witness :
    processFile [(".txt", "Docs")] true
        (FS.mk [(["tmp", "x"], Entry.dir), (["tmp", "x", "Docs"], Entry.file),
          (["tmp", "x", "a.txt"], Entry.file)])
        ["tmp", "x"] ["tmp", "x", "a.txt"] =
      Except.ok (FS.mk [(["tmp", "x"], Entry.dir), (["tmp", "x", "Docs"], Entry.file),
          (["tmp", "x", "a.txt"], Entry.file)],
        [("failed", "[FileExistsError] failed to move 'a.txt' to 'Docs' folder")]) ∧
    organizeFiles [(".txt", "Docs")] true ["tmp", "x"]
        (FS.mk [(["tmp", "x"], Entry.dir), (["tmp", "x", "Docs"], Entry.file),
          (["tmp", "x", "a.txt"], Entry.file)])
        [["tmp", "x", "a.txt"]] =
      Except.ok (FS.mk [(["tmp", "x"], Entry.dir), (["tmp", "x", "Docs"], Entry.file),
          (["tmp", "x", "a.txt"], Entry.file)],
        [("failed", "[FileExistsError] failed to move 'a.txt' to 'Docs' folder")]) := by
  have h := C4_per_file_failure_continues [(".txt", "Docs")] true
    (FS.mk [(["tmp", "x"], Entry.dir), (["tmp", "x", "Docs"], Entry.file),
      (["tmp", "x", "a.txt"], Entry.file)])
    (FS.mk [(["tmp", "x"], Entry.dir), (["tmp", "x", "Docs"], Entry.file),
      (["tmp", "x", "a.txt"], Entry.file)])
    ["tmp", "x"] ["tmp", "x", "a.txt"] Err.fileExistsError (by decide) (by decide)
  refine ⟨h.1, ?_⟩
  have h2 := h.2 [] _ [] rfl
  simpa using h2

/-- C9: `get_files` yields only non-hidden regular files directly under the
root: every yielded path is `root ++ [n]` with `n` not starting with a
period, is recorded as a regular file, and — when the filesystem has no
duplicate paths — is not a directory. -/

theorem C9_getFiles_only_plain_files (fs : FS) (root p : List String)
    (hp : p ∈ fs.getFiles root) :
    (∃ n, p = root ++ [n] ∧ startsWithDot n = false) ∧
    fs.isFile p ∧
    ((fs.entries.map Prod.fst).Nodup → ¬ fs.isDir p) := by
  obtain ⟨e, he, hsome⟩ := List.mem_filterMap.mp hp
  rcases e with ⟨q, k⟩
  cases k with
  | dir => cases hsome
  | file =>
    change (match q.getLast? with
      | some n => if q.dropLast = root ∧ startsWithDot n = false then some q else none
      | none => none) = some p at hsome
    cases hgl : q.getLast? with
    | none => rw [hgl] at hsome; cases hsome
    | some n =>
      rw [hgl] at hsome
      change (if q.dropLast = root ∧ startsWithDot n = false then some q else none)
        = some p at hsome
      by_cases hc : q.dropLast = root ∧ startsWithDot n = false
      · rw [if_pos hc] at hsome
        cases hsome
        obtain ⟨ys, hys⟩ := List.getLast?_eq_some_iff.mp hgl
        have hy : ys = root := by
          rw [hys] at hc; simpa using hc.1
        subst hy
        refine ⟨⟨n, hys, hc.2⟩, hys ▸ he, ?_⟩
        intro hnd hdir
        have hinj := List.inj_on_of_nodup_map hnd
        have heq := hinj he hdir rfl
        simp at heq
      · rw [if_neg hc] at hsome; cases hsome

/-- Witness for C9: a root with a plain file, a hidden file and a
subdirectory; the theorem is applied to the plain file. -/

theorem C9_getFiles_only_plain_files_witness :
    (∃ n, ["r", "f.txt"] = ["r"] ++ [n] ∧ startsWithDot n = false) ∧
    FS.isFile (FS.mk [(["r"], Entry.dir), (["r", "f.txt"], Entry.file),
      (["r", ".h"], Entry.file), (["r", "sub"], Entry.dir)]) ["r", "f.txt"] ∧
    (((FS.mk [(["r"], Entry.dir), (["r", "f.txt"], Entry.file),
        (["r", ".h"], Entry.file), (["r", "sub"], Entry.dir)]).entries.map Prod.fst).Nodup →
      ¬ FS.isDir (FS.mk [(["r"], Entry.dir), (["r", "f.txt"], Entry.file),
        (["r", ".h"], Entry.file), (["r", "sub"], Entry.dir)]) ["r", "f.txt"]) :=
  C9_getFiles_only_plain_files
    (FS.mk [(["r"], Entry.dir), (["r", "f.txt"], Entry.file),
      (["r", ".h"], Entry.file), (["r", "sub"], Entry.dir)])
    ["r"] ["r", "f.txt"] (by decide)

/-- C10: `move_file` with `keep_dup = true` on an existing source file and an
existing target directory renames to a destination that does not exist at
rename time — the original name when it is free, otherwise `stem (N)suffix`
for the smallest free `N ≥ 1` — so no existing file is overwritten. -/

theorem C10_moveFile_no_overwrite (fs : FS) (root filePath : List String)
    (folderName : String)
    (hf : fs.isFile filePath) (hd : fs.isDir (root ++ segsOf folderName)) :
    ∃ r fs',
      fs.moveFile root filePath folderName true = Except.ok fs' ∧
      ¬ fs.pexists (root ++ segsOf folderName ++ [r]) ∧
      (¬ fs.pexists (root ++ segsOf folderName ++ [filePath.getLast?.getD ""]) →
        r = filePath.getLast?.getD "") ∧
      (fs.pexists (root ++ segsOf folderName ++ [filePath.getLast?.getD ""]) →
        ∃ n, 1 ≤ n ∧
          r = dupName (pyStem (filePath.getLast?.getD ""))
            (pySuffix (filePath.getLast?.getD "")) n ∧
          ∀ m, 1 ≤ m → m < n →
            fs.pexists (root ++ segsOf folderName ++
              [dupName (pyStem (filePath.getLast?.getD ""))
                (pySuffix (filePath.getLast?.getD "")) m])) ∧
      (∀ q, q ≠ filePath → fs.isFile q → fs'.isFile q) := by
  obtain ⟨r, hr, hrfree, hfree_name, hcoll⟩ :=
    moveTargetName_free (fs.namesInDir (root ++ segsOf folderName))
      (filePath.getLast?.getD "")
      (pyStem (filePath.getLast?.getD "")) (pySuffix (filePath.getLast?.getD ""))
  have hrnotex : ¬ fs.pexists (root ++ segsOf folderName ++ [r]) := by
    rw [← FS.mem_namesInDir]
    exact hrfree
  have hnotdir : ¬ fs.isDir (root ++ segsOf folderName ++ [r]) :=
    fun h => hrnotex (Or.inr h)
  have hmv : fs.moveFile root filePath folderName true =
      Except.ok (FS.mk ((fs.entries.filter fun e =>
        decide (e.1 ≠ filePath ∧ e.1 ≠ root ++ segsOf folderName ++ [r])) ++
        [(root ++ segsOf folderName ++ [r], Entry.file)])) := by
    have hbody : fs.moveFile root filePath folderName true =
        (if ¬ fs.isFile filePath then Except.error Err.fileNotFoundError
         else if ¬ fs.isDir (root ++ segsOf folderName) then
           Except.error Err.notADirectoryError
         else
           match moveTargetName (fs.namesInDir (root ++ segsOf folderName))
               (filePath.getLast?.getD "")
               (pyStem (filePath.getLast?.getD ""))
               (pySuffix (filePath.getLast?.getD "")) true with
           | some destName => fs.rename filePath (root ++ segsOf folderName ++ [destName])
           | none => Except.error Err.noFreeName) := rfl
    rw [hbody, if_neg (fun hh => hh hf), if_neg (fun hh => hh hd), hr]
    dsimp only
    unfold FS.rename
    rw [if_neg hnotdir]
  refine ⟨r, _, hmv, hrnotex, ?_, ?_, ?_⟩
  · intro hnx
    exact hfree_name (fun hm => hnx ((FS.mem_namesInDir fs _ _).mp hm))
  · intro hx
    obtain ⟨n, hn1, hrn, _, hmin⟩ := hcoll ((FS.mem_namesInDir fs _ _).mpr hx)
    exact ⟨n, hn1, hrn, fun m h1 h2 => (FS.mem_namesInDir fs _ _).mp (hmin m h1 h2)⟩
  · intro q hq hqf
    have hqne : q ≠ root ++ segsOf folderName ++ [r] := by
      intro hEq
      exact hrnotex (hEq ▸ Or.inl hqf)
    show (q, Entry.file) ∈ _
    apply List.mem_append_left
    have hqne' : q ≠ root ++ (segsOf folderName ++ [r]) := by
      rw [← List.append_assoc]; exact hqne
    exact List.mem_filter.mpr ⟨hqf, by simp [hq, hqne']⟩

/-- Witness for C10: moving `a.txt` into `Docs`, which already contains
`a.txt`. -/

theorem C10_moveFile_no_overwrite_witness :
    ∃ r fs',
      FS.moveFile (FS.mk [(["r"], Entry.dir), (["r", "a.txt"], Entry.file),
          (["r", "Docs"], Entry.dir), (["r", "Docs", "a.txt"], Entry.file)])
        ["r"] ["r", "a.txt"] "Docs" true = Except.ok fs' ∧
      ¬ FS.pexists (FS.mk [(["r"], Entry.dir), (["r", "a.txt"], Entry.file),
          (["r", "Docs"], Entry.dir), (["r", "Docs", "a.txt"], Entry.file)])
        (["r"] ++ segsOf "Docs" ++ [r]) ∧
      (¬ FS.pexists (FS.mk [(["r"], Entry.dir), (["r", "a.txt"], Entry.file),
          (["r", "Docs"], Entry.dir), (["r", "Docs", "a.txt"], Entry.file)])
        (["r"] ++ segsOf "Docs" ++ [(["r", "a.txt"] : List String).getLast?.getD ""]) →
        r = (["r", "a.txt"] : List String).getLast?.getD "") ∧
      (FS.pexists (FS.mk [(["r"], Entry.dir), (["r", "a.txt"], Entry.file),
          (["r", "Docs"], Entry.dir), (["r", "Docs", "a.txt"], Entry.file)])
        (["r"] ++ segsOf "Docs" ++ [(["r", "a.txt"] : List String).getLast?.getD ""]) →
        ∃ n, 1 ≤ n ∧
          r = dupName (pyStem ((["r", "a.txt"] : List String).getLast?.getD ""))
            (pySuffix ((["r", "a.txt"] : List String).getLast?.getD "")) n ∧
          ∀ m, 1 ≤ m → m < n →
            FS.pexists (FS.mk [(["r"], Entry.dir), (["r", "a.txt"], Entry.file),
              (["r", "Docs"], Entry.dir), (["r", "Docs", "a.txt"], Entry.file)])
              (["r"] ++ segsOf "Docs" ++
                [dupName (pyStem ((["r", "a.txt"] : List String).getLast?.getD ""))
                  (pySuffix ((["r", "a.txt"] : List String).getLast?.getD "")) m])) ∧
      (∀ q, q ≠ ["r", "a.txt"] →
        FS.isFile (FS.mk [(["r"], Entry.dir), (["r", "a.txt"], Entry.file),
          (["r", "Docs"], Entry.dir), (["r", "Docs", "a.txt"], Entry.file)]) q →
        fs'.isFile q) :=
  C10_moveFile_no_overwrite
    (FS.mk [(["r"], Entry.dir), (["r", "a.txt"], Entry.file),
      (["r", "Docs"], Entry.dir), (["r", "Docs", "a.txt"], Entry.file)])
    ["r"] ["r", "a.txt"] "Docs" (by decide) (by decide)

/-- C3: for every valid configuration document on disk, `load()` followed by
`update()` with all four optional overrides omitted leaves the stored
document equal to the original. -/

theorem C3_load_update_identity (raw : RawDoc) (doc : ConfigDoc)
    (_hload : getConfigs (some raw) = Except.ok doc) :
    setConfigs doc none none none none = doc := rfl

/-- Witness for C3 at a concrete valid document. -/

theorem C3_load_update_identity_witness :
    setConfigs (ConfigDoc.mk [(".txt", "Docs")] ["/tmp/x"] true "all")
      none none none none = ConfigDoc.mk [(".txt", "Docs")] ["/tmp/x"] true "all" :=
  C3_load_update_identity
    (RawDoc.mk (some [(".txt", "Docs")]) (some ["/tmp/x"]) (some true) (some "all"))
    (ConfigDoc.mk [(".txt", "Docs")] ["/tmp/x"] true "all") rfl

/-- C5: `load()` fails with a not-found error when the file is missing, with
a validation error when a required key is absent or `folder_paths` is empty
or longer than 20 entries; every document meeting the requirements (exactly
20 paths included) is returned as is. -/

theorem C5_getConfigs_validation :
    getConfigs none = Except.error CfgErr.fileNotFound ∧
    (∀ raw : RawDoc,
      (raw.extension_to_folder = none ∨ raw.folder_paths = none ∨
        raw.keep_duplicates = none ∨ raw.status_level = none) →
      ∃ e, getConfigs (some raw) = Except.error e ∧ e.isValidation = true) ∧
    (∀ (raw : RawDoc) (fps : List String), raw.folder_paths = some fps →
      (fps.length = 0 ∨ fps.length > 20) →
      ∃ e, getConfigs (some raw) = Except.error e ∧ e.isValidation = true) ∧
    (∀ ext fps kd sl, 0 < fps.length → fps.length ≤ 20 →
      getConfigs (some (RawDoc.mk (some ext) (some fps) (some kd) (some sl))) =
        Except.ok (ConfigDoc.mk ext fps kd sl)) := by
  refine ⟨rfl, ?_, ?_, ?_⟩
  · intro raw h
    rcases raw with ⟨oe, og, okd, osl⟩
    cases oe with
    | none => exact ⟨CfgErr.keyError "extension_to_folder", rfl, rfl⟩
    | some e1 =>
      cases og with
      | none => exact ⟨CfgErr.keyError "folder_paths", rfl, rfl⟩
      | some f1 =>
        by_cases h0 : f1.length = 0
        · exact ⟨CfgErr.valueError, by simp [getConfigs, h0], rfl⟩
        · by_cases h20 : f1.length > 20
          · exact ⟨CfgErr.valueError, by simp [getConfigs, h0, h20], rfl⟩
          · cases okd with
            | none =>
              exact ⟨CfgErr.keyError "keep_duplicates", by simp [getConfigs, h0, h20], rfl⟩
            | some kd =>
              cases osl with
              | none =>
                exact ⟨CfgErr.keyError "status_level", by simp [getConfigs, h0, h20], rfl⟩
              | some sl => simp at h
  · intro raw fps hfps hlen
    rcases raw with ⟨oe, og, okd, osl⟩
    cases oe with
    | none => exact ⟨CfgErr.keyError "extension_to_folder", rfl, rfl⟩
    | some e1 =>
      simp only [RawDoc.mk.injEq] at hfps
      cases og with
      | none => cases hfps
      | some f1 =>
        have hf : f1 = fps := by simpa using hfps
        subst hf
        rcases hlen with h0 | h20
        · exact ⟨CfgErr.valueError, by simp [getConfigs, h0], rfl⟩
        · exact ⟨CfgErr.valueError,
            by simp [getConfigs, show ¬ f1.length = 0 by omega, h20], rfl⟩
  · intro ext fps kd sl h1 h2
    simp [getConfigs, show ¬ fps.length = 0 by omega, show ¬ fps.length > 20 by omega]

/-- Witness for C5: a full document with exactly 20 folder paths loads, and a
document missing `extension_to_folder` fails with a validation error. -/

theorem C5_getConfigs_validation_witness :
    getConfigs (some (RawDoc.mk (some [(".a", "A")]) (some (List.replicate 20 "p"))
        (some true) (some "all"))) =
      Except.ok (ConfigDoc.mk [(".a", "A")] (List.replicate 20 "p") true "all") ∧
    ∃ e, getConfigs (some (RawDoc.mk none (some ["p"]) (some true) (some "all"))) =
      Except.error e ∧ e.isValidation = true :=
  ⟨C5_getConfigs_validation.2.2.2 [(".a", "A")] (List.replicate 20 "p") true "all"
      (by simp) (by simp),
   C5_getConfigs_validation.2.1 (RawDoc.mk none (some ["p"]) (some true) (some "all"))
      (Or.inl rfl)⟩

/-- C6: `update(partial)` replaces `folder_paths` wholesale exactly when the
supplied list has 1–19 entries; for an empty list or one of 20 or more, the
old value is kept (and no error is raised: the update is total). -/

theorem C6_folder_paths_replacement (doc : ConfigDoc) (fps : List String) :
    setConfigs doc none (some fps) none none =
      (if 0 < fps.length ∧ fps.length < 20 then { doc with folder_paths := fps }
       else doc) := by
  by_cases h : 0 < fps.length ∧ fps.length < 20
  · simp [setConfigs, h]
  · simp [setConfigs, h]

/-! ### Lookup characterisation of the extension-map merge -/

theorem extFolderOf_cons (x : String × String) (l : List (String × String)) (q : String) :
    extFolderOf (x :: l) q = if x.1 = q then some x.2 else extFolderOf l q := by
  unfold extFolderOf
  by_cases h : x.1 = q
  · rw [List.find?_cons_of_pos]
    · simp [h]
    · simp [h]
  · rw [List.find?_cons_of_neg]
    · simp [h]
    · simp [h]

theorem extFolderOf_map_replace_ne (m : List (String × String)) (k v q : String)
    (hq : q ≠ k) :
    extFolderOf (m.map (fun kv => if kv.1 == k then (k, v) else kv)) q =
      extFolderOf m q := by
  induction m with
  | nil => rfl
  | cons a m ih =>
    by_cases ha : a.1 = k
    · have h1 : (if a.1 == k then (k, v) else a) = (k, v) := by simp [ha]
      rw [List.map_cons, h1, extFolderOf_cons, extFolderOf_cons,
        if_neg (fun hh => hq hh.symm), if_neg (by rw [ha]; exact fun hh => hq hh.symm), ih]
    · have h1 : (if a.1 == k then (k, v) else a) = a := by simp [ha]
      rw [List.map_cons, h1, extFolderOf_cons, extFolderOf_cons, ih]

theorem extFolderOf_map_replace_eq (m : List (String × String)) (k v : String)
    (hany : m.any (fun kv => kv.1 == k) = true) :
    extFolderOf (m.map (fun kv => if kv.1 == k then (k, v) else kv)) k = some v := by
  induction m with
  | nil => cases hany
  | cons a m ih =>
    by_cases ha : a.1 = k
    · have h1 : (if a.1 == k then (k, v) else a) = (k, v) := by simp [ha]
      rw [List.map_cons, h1, extFolderOf_cons, if_pos rfl]
    · have h1 : (if a.1 == k then (k, v) else a) = a := by simp [ha]
      have hany' : m.any (fun kv => kv.1 == k) = true := by
        simpa [ha] using hany
      rw [List.map_cons, h1, extFolderOf_cons, if_neg ha, ih hany']

theorem extFolderOf_append_single (m : List (String × String)) (k v q : String) :
    extFolderOf (m ++ [(k, v)]) q =
      match extFolderOf m q with
      | some r => some r
      | none => if k = q then some v else none := by
  induction m with
  | nil =>
    rw [List.nil_append, extFolderOf_cons]
    rfl
  | cons a m ih =>
    by_cases h : a.1 = q
    · simp [List.cons_append, extFolderOf_cons, h]
    · simp [List.cons_append, extFolderOf_cons, h, ih]

theorem extFolderOf_eq_none_of_any_false (m : List (String × String)) (k : String)
    (hany : m.any (fun kv => kv.1 == k) = false) :
    extFolderOf m k = none := by
  induction m with
  | nil => rfl
  | cons a m ih =>
    simp only [List.any_cons, Bool.or_eq_false_iff] at hany
    rw [extFolderOf_cons, if_neg (by simpa using hany.1), ih hany.2]

theorem extFolderOf_dictUpsert (m : List (String × String)) (k v q : String) :
    extFolderOf (dictUpsert m k v) q = if q = k then some v else extFolderOf m q := by
  unfold dictUpsert
  by_cases hany : m.any (fun kv => kv.1 == k) = true
  · rw [if_pos hany]
    by_cases hq : q = k
    · subst hq
      rw [if_pos rfl]
      exact extFolderOf_map_replace_eq m q v hany
    · rw [if_neg hq, extFolderOf_map_replace_ne m k v q hq]
  · rw [if_neg hany, extFolderOf_append_single]
    by_cases hq : q = k
    · subst hq
      have hf : m.any (fun kv => kv.1 == q) = false := by
        cases hb : m.any (fun kv => kv.1 == q)
        · rfl
        · exact absurd hb hany
      rw [extFolderOf_eq_none_of_any_false m q hf]
    · cases hE : extFolderOf m q with
      | some r => rw [if_neg hq]
      | none =>
        rw [if_neg hq]
        exact if_neg (fun hh => hq (Eq.symm hh))

theorem mergeExt_lookup : ∀ (es : List String) (m : List (String × String)) (k : String),
    extFolderOf (mergeExtEntries m es) k =
      match lastValidValue k es with
      | some v => some v
      | none => extFolderOf m k := by
  intro es
  induction es with
  | nil => intro m k; rfl
  | cons e es ih =>
    intro m k
    have hstep : mergeExtEntries m (e :: es) =
        match validExtEntry e with
        | some kv => mergeExtEntries (dictUpsert m kv.1 kv.2) es
        | none => mergeExtEntries m es := rfl
    have hstep2 : lastValidValue k (e :: es) =
        match lastValidValue k es with
        | some v => some v
        | none =>
          match validExtEntry e with
          | some kv => if kv.1 = k then some kv.2 else none
          | none => none := rfl
    rw [hstep, hstep2]
    cases hve : validExtEntry e with
    | none =>
      dsimp only
      rw [ih]
      cases lastValidValue k es <;> rfl
    | some kv =>
      dsimp only
      rw [ih]
      cases hE : lastValidValue k es with
      | some v => rfl
      | none =>
        dsimp only
        rw [extFolderOf_dictUpsert]
        by_cases hq : k = kv.1
        · rw [if_pos hq, if_pos (Eq.symm hq)]
        · rw [if_neg hq, if_neg (fun hh => hq (Eq.symm hh))]

/-- C7 counterexample: the entry `"a.b Folder"` is merged although its first
token does not start with a period — `set_configs` tests `"." in
data_parts[0]` (containment), not `startswith(".")`. -/

theorem C7_merge_requires_dot_containment_cex :
    (setConfigs (ConfigDoc.mk [] ["p"] true "all") (some ["a.b Folder"])
      none none none).extension_to_folder = [("a.b", "Folder")] ∧
    startsWithDot "a.b" = false := by
  constructor
  · rfl
  · rfl

/-- C7 (amended): each supplied entry is stripped and split on the first
space character; it is merged exactly when the split yields two parts whose
first token contains a dot; and when several valid entries share a key, the
last one supplied wins. -/

theorem C7_ext_entries_merge (doc : ConfigDoc) (entries : List String) (k : String) :
    extFolderOf (setConfigs doc (some entries) none none none).extension_to_folder k =
      match lastValidValue k entries with
      | some v => some v
      | none => extFolderOf doc.extension_to_folder k := by
  have hset : (setConfigs doc (some entries) none none none).extension_to_folder =
      mergeExtEntries doc.extension_to_folder entries := rfl
  rw [hset, mergeExt_lookup]

/-- C8: for every message and category among `success`, `failed` and `None`,
`ConsoleManager.print` appends the rendered pair to the in-memory history —
whatever the verbosity — and writes the rendered message to the output
stream exactly when the configured level is `"all"`, equals the category, or
the category is `None`. -/

theorem C8_console_print_spec (cm : ConsoleManager) (msg : String) (flag : Option String)
    (hflag : flag ∈ flagKeys) :
    consolePrint cm msg flag = Except.ok
      (ConsoleManager.mk (cm.messages ++ [(flagSymbol flag ++ " " ++ msg ++ "\n", flag)])
        cm.output_level,
       if cm.output_level = "all" ∨ some cm.output_level = flag ∨ flag = none then
         some (flagSymbol flag ++ " " ++ msg ++ "\n")
       else none) := by
  have hbody : consolePrint cm msg flag =
      (if flag ∉ flagKeys then Except.error Err.typeError
       else if flag.isSome ∧ cm.output_level ≠ "all" ∧ some cm.output_level ≠ flag then
         Except.ok (ConsoleManager.mk
           (cm.messages ++ [(flagSymbol flag ++ " " ++ msg ++ "\n", flag)])
           cm.output_level, none)
       else
         Except.ok (ConsoleManager.mk
           (cm.messages ++ [(flagSymbol flag ++ " " ++ msg ++ "\n", flag)])
           cm.output_level, some (flagSymbol flag ++ " " ++ msg ++ "\n"))) := rfl
  rw [hbody, if_neg (not_not_intro hflag)]
  by_cases hb : cm.output_level = "all" ∨ some cm.output_level = flag ∨ flag = none
  · have hA : ¬ (flag.isSome = true ∧ cm.output_level ≠ "all" ∧
        some cm.output_level ≠ flag) := by
      rcases hb with hb | hb | hb
      · exact fun hA => hA.2.1 hb
      · exact fun hA => hA.2.2 hb
      · exact fun hA => by simp [hb] at hA
    rw [if_neg hA, if_pos hb]
  · have hA : flag.isSome = true ∧ cm.output_level ≠ "all" ∧
        some cm.output_level ≠ flag := by
      push_neg at hb
      exact ⟨Option.ne_none_iff_isSome.mp hb.2.2, hb.1, hb.2.1⟩
    rw [if_pos hA, if_neg hb]

/-- Witness for C8: a reporter at level `"failed"` receiving a `success`
message appends it to the history but does not write it. -/

theorem C8_console_print_spec_witness :
    consolePrint (ConsoleManager.mk [] "failed") "m" (some "success") = Except.ok
      (ConsoleManager.mk [(flagSymbol (some "success") ++ " " ++ "m" ++ "\n",
        some "success")] "failed",
       if ("failed" : String) = "all" ∨ some ("failed" : String) = some "success" ∨
           (some "success" : Option String) = none then
         some (flagSymbol (some "success") ++ " " ++ "m" ++ "\n")
       else none) :=
  C8_console_print_spec (ConsoleManager.mk [] "failed") "m" (some "success") (by decide)
